import Mathlib

/-!
# FinanceFlow — verification of the ledger core

Shallow embedding of `src/group5_maincode.py`. The ledger state is the
`FinanceManager.data` dictionary: four ordered sequences of records. Python
dict records are modelled by `Rec`, a record with one optional field per key
that ever occurs (`category`, `amount`, `date`, `name`); a key absent from the
dict is `none`. Monetary amounts (Python floats) are modelled as rationals:
every claim is about comparisons and exact sums, not rounding. Where the
source indexes a dict with `d[k]` (raising `KeyError` when the key is
missing) the model totalises with `Option.getD`; theorems about those
operations carry well-formedness hypotheses excluding the raising case.
`date.today().isoformat()` is passed in as an explicit `today` argument.
-/

namespace FinanceFlow

structure Rec where
  category : Option String := none
  amount : Option ℚ := none
  date : Option String := none
  name : Option String := none
deriving DecidableEq, Repr, Inhabited

/-- The four sequences held in `FinanceManager.data`. -/
structure Store where
  incomes : List Rec
  expenses : List Rec
  budgets : List Rec
  goals : List Rec
deriving DecidableEq, Repr, Inhabited

/-- Python `str.strip()`: drop whitespace characters from both ends
(modelled over the character list; ASCII whitespace — the claims only
exercise ASCII categories). -/
def pyStrip (s : String) : String :=
  String.mk (((s.data.dropWhile Char.isWhitespace).reverse.dropWhile
    Char.isWhitespace).reverse)

/-- `normalize_category`: `name.strip().capitalize()` — strip surrounding
whitespace, upper-case the first character, lower-case the rest (ASCII). -/
def FinanceManager.normalize_category (name : String) : String :=
  match (pyStrip name).data with
  | [] => ""
  | c :: cs => String.mk (c.toUpper :: cs.map Char.toLower)

/-- `get_category_expense`: `sum(e["amount"] for e in expenses if e["category"] == category)`.
A record missing `category` is treated as non-matching and a matching record
missing `amount` contributes 0; in the source both would raise `KeyError`,
a case excluded by the well-formedness hypotheses of the theorems below. -/
def FinanceManager.get_category_expense (s : Store) (category : String) : ℚ :=
  (s.expenses.filter (fun e => e.category == some category)).foldl
    (fun acc e => acc + e.amount.getD 0) 0

def FinanceManager.add_income (s : Store) (category : String) (amount : ℚ)
    (today : String) : Store :=
  { s with incomes :=
      s.incomes ++ [{ category := some category, amount := some amount, date := some today }] }

def FinanceManager.add_expense (s : Store) (category : String) (amount : ℚ)
    (today : String) : Store :=
  { s with expenses :=
      s.expenses ++ [{ category := some category, amount := some amount, date := some today }] }

def FinanceManager.add_budget (s : Store) (category : String) (amount : ℚ) : Store :=
  { s with budgets := s.budgets ++ [{ category := some category, amount := some amount }] }

def FinanceManager.add_goal (s : Store) (name : String) (amount : ℚ) : Store :=
  { s with goals := s.goals ++ [{ name := some name, amount := some amount }] }

/-- `get_total_income`: `sum(item.get("amount", 0) for item in incomes)`. -/
def FinanceManager.get_total_income (s : Store) : ℚ :=
  s.incomes.foldl (fun acc item => acc + item.amount.getD 0) 0

/-- `get_total_expense`: `sum(item.get("amount", 0) for item in expenses)`. -/
def FinanceManager.get_total_expense (s : Store) : ℚ :=
  s.expenses.foldl (fun acc item => acc + item.amount.getD 0) 0

def FinanceManager.get_available_funds (s : Store) : ℚ :=
  FinanceManager.get_total_income s - FinanceManager.get_total_expense s

/-- `can_add_expense`: `amount <= self.get_available_funds()`. -/
def FinanceManager.can_add_expense (s : Store) (amount : ℚ) : Bool :=
  decide (amount ≤ FinanceManager.get_available_funds s)

/-- `categories`: build a set of `item.get("category", "")` over incomes then
expenses, then `sorted(...)`. The Python set plus `sorted` returns the unique
ascending enumeration of the distinct strings; modelled as `dedup` followed by
`insertionSort` (any correct sort agrees on a list of distinct elements under
a linear order). -/
def FinanceManager.categories (s : Store) : List String :=
  ((s.incomes.map (fun inc => inc.category.getD "") ++
    s.expenses.map (fun exp => exp.category.getD "")).dedup).insertionSort (· ≤ ·)

/-- CPython `del l[i]` semantics: a negative index is first shifted by the
length, then the index is bounds-checked; out of bounds raises `IndexError`,
which `delete_goal` catches and ignores. -/
def pyDelete (l : List Rec) (i : Int) : List Rec :=
  let j := if i < 0 then i + l.length else i
  if 0 ≤ j ∧ j < (l.length : Int) then l.eraseIdx j.toNat else l

/-- `delete_goal`: `del self.data['goals'][index]` with `IndexError` swallowed. -/
def FinanceManager.delete_goal (s : Store) (index : Int) : Store :=
  { s with goals := pyDelete s.goals index }

/-- `achieve_goal`: read `goals[index]`, delete it, save, and return the goal;
on `IndexError` return `None` without saving. The third component records
whether `save_data` was called. -/
def FinanceManager.achieve_goal (s : Store) (index : Int) :
    Option Rec × Store × Bool :=
  let j := if index < 0 then index + s.goals.length else index
  if 0 ≤ j ∧ j < (s.goals.length : Int) then
    (s.goals[j.toNat]?, { s with goals := s.goals.eraseIdx j.toNat }, true)
  else
    (none, s, false)

/-- `FinanceManager.achieve_all_goals`: copies the goal list, clears it, saves,
and returns the copy — no funds check. Dead code in the application: the
"Achieve All" button is bound to `SummaryFrame.achieve_all_goals` (the frame
method shadows this one), which is modelled below. -/
def FinanceManager.achieve_all_goals (s : Store) : List Rec × Store :=
  (s.goals, { s with goals := [] })

def FinanceManager.delete_all_goals (s : Store) : Store :=
  { s with goals := [] }

/-- `goal.get('name') if isinstance(goal, dict) and 'name' in goal else str(goal)`.
All records in the model are dicts, so only the `'name' in goal` test remains;
the `str(goal)` textual fallback for a record without a name is stood in for
by the derived `Repr` rendering (its exact text differs from CPython's dict
repr; no theorem below depends on that branch). -/
def goalDisplayName (goal : Rec) : String :=
  match goal.name with
  | some n => n
  | none => reprStr goal

/-- `goal.get('amount') if isinstance(goal, dict) and 'amount' in goal else 0`. -/
def goalAmount (goal : Rec) : ℚ :=
  goal.amount.getD 0

/-- The synthetic settlement category `f'Goal ("{goal_name}")'`. -/
def goalCategory (goal_name : String) : String :=
  "Goal (\"" ++ goal_name ++ "\")"

/-- Outcome of `ExpenseFrame.add_expense` (which of the early returns fired,
or success). -/
inductive AddExpenseResult
  | emptyCategory
  | invalidAmount
  | insufficientFunds
  | budgetExceeded
  | success
deriving DecidableEq, Repr

/-- `ExpenseFrame.add_expense`. `cat` is the entry text after `.strip()` and
`amt` the parsed float; a non-numeric entry (float-parse failure) lands in the
same message box as `amt ≤ 0` and is out of the model. Steps, in source
order: empty-category check, positivity check, funds check
(`can_add_expense`), then the budget gate: the first budget whose normalized
category equals the normalized input category supplies `budget_amt`
(default 0; a budget record missing a key would raise in the source —
excluded by well-formedness hypotheses below), and when `budget_amt > 0` and
`current_spent + amt > budget_amt` the expense is rejected; otherwise
`manager.add_expense(cat, amt)` appends it. -/
def ExpenseFrame.add_expense (s : Store) (cat : String) (amt : ℚ)
    (today : String) : AddExpenseResult × Store :=
  if cat = "" then (.emptyCategory, s)
  else if amt ≤ 0 then (.invalidAmount, s)
  else
    let norm_cat := FinanceManager.normalize_category cat
    if FinanceManager.can_add_expense s amt = false then (.insufficientFunds, s)
    else
      let budget_amt :=
        match s.budgets.find?
            (fun b => FinanceManager.normalize_category (b.category.getD "") == norm_cat) with
        | some b => b.amount.getD 0
        | none => 0
      if 0 < budget_amt ∧ FinanceManager.get_category_expense s norm_cat + amt > budget_amt then
        (.budgetExceeded, s)
      else
        (.success, FinanceManager.add_expense s cat amt today)

/-- `SummaryFrame.achieve_goal(idx)`: bounds check (`idx < 0 or idx >= len`),
then the funds check `goal_amt > balance`; on success `delete_goal(idx)`
followed by `add_expense(f'Goal ("{name}")', goal_amt)`. The `getD default`
is never consulted: the guard ensures the index is valid. -/
def SummaryFrame.achieve_goal (s : Store) (idx : Int) (today : String) : Store :=
  let goals := s.goals
  if idx < 0 ∨ (goals.length : Int) ≤ idx then s
  else
    let goal := goals.getD idx.toNat default
    let goal_name := goalDisplayName goal
    let goal_amt := goalAmount goal
    let balance := FinanceManager.get_available_funds s
    if goal_amt > balance then s
    else
      FinanceManager.add_expense (FinanceManager.delete_goal s idx)
        (goalCategory goal_name) goal_amt today

/-- The loop body of `SummaryFrame.achieve_all_goals`, iterating over the
snapshot `goals = list(data['goals'])` while carrying the local `balance`.
When a goal passes the check the source runs `manager.delete_goal(0)`
("Always delete first since list shrinks") and then appends the settlement
expense; otherwise the store is untouched. Returns
(achieved names, not-achieved names, final store), the name lists in visit
order. -/
def achieveAllLoop (today : String) :
    List Rec → ℚ → Store → List String × List String × Store
  | [], _, st => ([], [], st)
  | goal :: rest, balance, st =>
    let goal_name := goalDisplayName goal
    let goal_amt := goalAmount goal
    if goal_amt ≤ balance then
      let st' := FinanceManager.add_expense (FinanceManager.delete_goal st 0)
        (goalCategory goal_name) goal_amt today
      let r := achieveAllLoop today rest (balance - goal_amt) st'
      (goal_name :: r.1, r.2.1, r.2.2)
    else
      let r := achieveAllLoop today rest balance st
      (r.1, goal_name :: r.2.1, r.2.2)

/-- `SummaryFrame.achieve_all_goals`: snapshot the goal list, read the balance
once, and run the loop. -/
def SummaryFrame.achieve_all_goals (s : Store) (today : String) :
    List String × List String × Store :=
  achieveAllLoop today s.goals (FinanceManager.get_available_funds s) s

/-!
## Load-time shape handling (`FinanceManager.__init__`)

A parsed JSON value sitting under one of the four keys is a list, a dict, some
other scalar, or absent (`data.get(key, None)` yields `None`, which is neither
list nor dict). The coercion loop runs only when `json.load` succeeded; a
parse failure (or a top-level value on which `.get` fails) takes the `except`
branch: reset the four sequences and `save_data()`. A missing file likewise
starts empty and saves. The `Bool` result records whether `save_data` ran
during load.
-/

inductive JField
  | jlist : List Rec → JField
  | jdict : Rec → JField
  | jscalar : JField
  | absent : JField
deriving DecidableEq, Repr

structure RawDoc where
  incomes : JField
  expenses : JField
  budgets : JField
  goals : JField
deriving DecidableEq, Repr

/-- One iteration of the repair loop:
`if not isinstance(val, list): data[key] = [val] if isinstance(val, dict) else []`. -/
def coerceField : JField → List Rec
  | .jlist l => l
  | .jdict r => [r]
  | .jscalar => []
  | .absent => []

inductive LoadInput
  | parsed : RawDoc → LoadInput
  | unparsable : LoadInput
  | missing : LoadInput
deriving DecidableEq, Repr

/-- `FinanceManager.__init__` (the load path). -/
def load : LoadInput → Store × Bool
  | .parsed d =>
    ({ incomes := coerceField d.incomes
       expenses := coerceField d.expenses
       budgets := coerceField d.budgets
       goals := coerceField d.goals }, false)
  | .unparsable => ({ incomes := [], expenses := [], budgets := [], goals := [] }, true)
  | .missing => ({ incomes := [], expenses := [], budgets := [], goals := [] }, true)

/-!
## Theorems
-/

theorem foldl_add_getD (l : List Rec) (a : ℚ) :
    l.foldl (fun acc item => acc + item.amount.getD 0) a
      = a + (l.map (fun item => item.amount.getD 0)).sum := by
  induction l generalizing a with
  | nil => simp
  | cons x xs ih => simp [ih, add_assoc]

/-- C10: `getTotalIncome` and `getTotalExpense` are total over every store
(records lacking an `amount` contribute 0, via `item.get("amount", 0)`), each
equal to the sum of the per-record amounts, and `getAvailableFunds` is always
their difference. -/
theorem C10_totals_and_funds (s : Store) :
    FinanceManager.get_total_income s
      = (s.incomes.map (fun item => item.amount.getD 0)).sum ∧
    FinanceManager.get_total_expense s
      = (s.expenses.map (fun item => item.amount.getD 0)).sum ∧
    FinanceManager.get_available_funds s
      = FinanceManager.get_total_income s - FinanceManager.get_total_expense s := by
  refine ⟨?_, ?_, rfl⟩ <;>
    simp [FinanceManager.get_total_income, FinanceManager.get_total_expense, foldl_add_getD]

def C7store : Store :=
  { incomes := [], expenses := [], budgets := [],
    goals := [{ name := some "G", amount := some 1 }] }

/-- C7 counterexample: the claim says any integer index that is not the
position of a live goal is a silent no-op, but `deleteGoal(-1)` on a one-goal
store deletes that goal (Python negative indexing): -1 is not a position
(positions are 0 ≤ i < 1), yet the store changes. -/
theorem C7_counterexample :
    FinanceManager.delete_goal C7store (-1) ≠ C7store := by
  decide

/-- C7 amended: `deleteGoal` follows Python list-index semantics. An index
`0 ≤ i < n` removes the goal at position `i` (later goals shift down); a
negative `-n ≤ i < 0` removes the goal at position `n + i`; only `i ≥ n` or
`i < -n` is a silent no-op. All other state is unchanged. -/
theorem C7_delete_goal_python_index (s : Store) (i : Int) :
    FinanceManager.delete_goal s i =
      if 0 ≤ i ∧ i < (s.goals.length : Int) then
        { s with goals := s.goals.eraseIdx i.toNat }
      else if -(s.goals.length : Int) ≤ i ∧ i < 0 then
        { s with goals := s.goals.eraseIdx (i + s.goals.length).toNat }
      else s := by
  simp only [FinanceManager.delete_goal, pyDelete]
  by_cases h : i < 0
  · rw [if_pos h]
    by_cases h2 : -(s.goals.length : Int) ≤ i
    · rw [if_pos (by omega), if_neg (by omega), if_pos ⟨h2, h⟩]
    · rw [if_neg (by omega), if_neg (by omega), if_neg (by omega)]
  · rw [if_neg h]
    by_cases h3 : i < (s.goals.length : Int)
    · rw [if_pos ⟨by omega, h3⟩, if_pos ⟨by omega, h3⟩]
    · rw [if_neg (by omega), if_neg (by omega), if_neg (by omega)]

/-- C9: `achieveGoal(i)` with `i` at least the number of live goals returns
`None`, leaves the store unchanged, and never calls `save_data`. -/
theorem C9_achieve_goal_out_of_range (s : Store) (i : Int)
    (h : (s.goals.length : Int) ≤ i) :
    FinanceManager.achieve_goal s i = (none, s, false) := by
  simp only [FinanceManager.achieve_goal]
  rw [if_neg (by omega)]

def C9store : Store :=
  { incomes := [], expenses := [], budgets := [],
    goals := [{ name := some "G", amount := some 2 }] }

theorem C9_witness :
    (C9store.goals.length : Int) ≤ 1 ∧
    FinanceManager.achieve_goal C9store 1 = (none, C9store, false) :=
  ⟨by decide, C9_achieve_goal_out_of_range C9store 1 (by decide)⟩

/-- C5: on a parsed document a field holding a single record is coerced to the
one-element sequence holding exactly that record, a scalar or absent field is
dropped to the empty sequence, and an unparsable document resets all four
sequences and immediately persists the empty state. -/
theorem C5_load_shape_coercion (d : RawDoc) (r : Rec) :
    (d.goals = .jdict r → (load (.parsed d)).1.goals = [r]) ∧
    (d.goals = .jscalar ∨ d.goals = .absent → (load (.parsed d)).1.goals = []) ∧
    (d.incomes = .jdict r → (load (.parsed d)).1.incomes = [r]) ∧
    (d.incomes = .jscalar ∨ d.incomes = .absent → (load (.parsed d)).1.incomes = []) ∧
    (d.expenses = .jdict r → (load (.parsed d)).1.expenses = [r]) ∧
    (d.expenses = .jscalar ∨ d.expenses = .absent → (load (.parsed d)).1.expenses = []) ∧
    (d.budgets = .jdict r → (load (.parsed d)).1.budgets = [r]) ∧
    (d.budgets = .jscalar ∨ d.budgets = .absent → (load (.parsed d)).1.budgets = []) ∧
    load .unparsable = ({ incomes := [], expenses := [], budgets := [], goals := [] }, true) := by
  refine ⟨?_, ?_, ?_, ?_, ?_, ?_, ?_, ?_, rfl⟩ <;>
    first
      | (rintro (h | h) <;> simp [load, coerceField, h])
      | (intro h; simp [load, coerceField, h])

def C5rec : Rec := { name := some "G", amount := some 5 }

def C5doc : RawDoc :=
  { incomes := .jscalar, expenses := .absent, budgets := .jlist [], goals := .jdict C5rec }

theorem C5_witness :
    (load (.parsed C5doc)).1.goals = [C5rec] ∧
    (load (.parsed C5doc)).1.incomes = [] ∧
    load .unparsable = ({ incomes := [], expenses := [], budgets := [], goals := [] }, true) :=
  ⟨(C5_load_shape_coercion C5doc C5rec).1 rfl,
   (C5_load_shape_coercion C5doc C5rec).2.2.2.1 (Or.inl rfl),
   (C5_load_shape_coercion C5doc C5rec).2.2.2.2.2.2.2.2⟩

def C6rec : Rec := { name := some "H", amount := some 7 }

def C6doc : RawDoc :=
  { incomes := .jlist [], expenses := .jlist [], budgets := .jlist [], goals := .jdict C6rec }

/-- C6 counterexample: a parsed document whose `goals` key is a single record
(not list-shaped) is NOT replaced wholesale with four empty sequences and is
NOT re-persisted: the one bad field is repaired to a one-element list and the
load performs no save. -/
theorem C6_counterexample :
    C6doc.goals = JField.jdict C6rec ∧
    load (.parsed C6doc) =
      ({ incomes := [], expenses := [], budgets := [], goals := [C6rec] }, false) :=
  ⟨rfl, rfl⟩

/-- C6 amended: only a parse failure triggers the wholesale reset of all four
sequences with an immediate persist; a document that parses but has keys that
are not list-shaped is repaired field-by-field (record → one-element list,
anything else → empty list) with no persist during load. -/
theorem C6_load_repair (d : RawDoc) :
    (load (.parsed d)).2 = false ∧
    (load (.parsed d)).1 =
      { incomes := coerceField d.incomes, expenses := coerceField d.expenses,
        budgets := coerceField d.budgets, goals := coerceField d.goals } ∧
    load .unparsable = ({ incomes := [], expenses := [], budgets := [], goals := [] }, true) :=
  ⟨rfl, rfl, rfl⟩

def C1goalA : Rec := { name := some "A", amount := some 50 }

def C1goalB : Rec := { name := some "B", amount := some 30 }

def C1goalC : Rec := { name := some "C", amount := some 5 }

def C1store : Store :=
  { incomes := [{ category := some "salary", amount := some 60, date := some "2026-01-01" }],
    expenses := [], budgets := [],
    goals := [C1goalA, C1goalB, C1goalC] }

/-- C1, evaluated at the failing input (goals A=50, B=30, C=5; funds 60):
A and C are achieved with their two settlement expenses and the name lists
come back in visit order, as the claim says — but the final goal sequence is
`[C]`, not `[B]`: each achievement deletes index 0 of the shrinking live list
("Always delete first since list shrinks"), which removes the *unachieved* B
and leaves the *achieved* C live, contradicting the claim that goals failing
the funds check remain in the sequence unchanged. -/
theorem C1_achieve_all_goals_failing_input :
    SummaryFrame.achieve_all_goals C1store "2026-01-02" =
      (["A", "C"], ["B"],
       { incomes := C1store.incomes,
         expenses :=
           [{ category := some (goalCategory "A"), amount := some 50, date := some "2026-01-02" },
            { category := some (goalCategory "C"), amount := some 5, date := some "2026-01-02" }],
         budgets := [],
         goals := [C1goalC] }) := by
  norm_num [SummaryFrame.achieve_all_goals, achieveAllLoop, C1store, C1goalA, C1goalB, C1goalC,
    goalDisplayName, goalAmount, goalCategory, FinanceManager.get_available_funds,
    FinanceManager.get_total_income, FinanceManager.get_total_expense,
    FinanceManager.add_expense, FinanceManager.delete_goal, pyDelete, List.eraseIdx]

/-- C2: `canAddExpense(amount)` is true iff `amount ≤ getAvailableFunds()`
(a pure query of the store), and an expense submission whose amount exceeds
the available funds is rejected: whichever early return fires, the result is
not `success` and all four stored sequences are returned unchanged. -/
theorem C2_can_add_expense_gate (s : Store) (amt : ℚ) (cat today : String) :
    (FinanceManager.can_add_expense s amt = true ↔
      amt ≤ FinanceManager.get_available_funds s) ∧
    (FinanceManager.get_available_funds s < amt →
      (ExpenseFrame.add_expense s cat amt today).2 = s ∧
      (ExpenseFrame.add_expense s cat amt today).1 ≠ AddExpenseResult.success) := by
  refine ⟨by simp [FinanceManager.can_add_expense], ?_⟩
  intro hlt
  have hc : FinanceManager.can_add_expense s amt = false := by
    simp only [FinanceManager.can_add_expense, decide_eq_false_iff_not]
    exact not_le.mpr hlt
  simp only [ExpenseFrame.add_expense]
  split_ifs <;> first
    | exact ⟨rfl, by decide⟩
    | simp_all

def C2store : Store := { incomes := [], expenses := [], budgets := [], goals := [] }

theorem C2_witness :
    FinanceManager.get_available_funds C2store < 1 ∧
    (ExpenseFrame.add_expense C2store "Food" 1 "2026-01-01").2 = C2store ∧
    (ExpenseFrame.add_expense C2store "Food" 1 "2026-01-01").1 ≠ AddExpenseResult.success := by
  have h : FinanceManager.get_available_funds C2store < 1 := by
    norm_num [FinanceManager.get_available_funds, FinanceManager.get_total_income,
      FinanceManager.get_total_expense, C2store]
  have h2 := (C2_can_add_expense_gate C2store 1 "Food" "2026-01-01").2 h
  exact ⟨h, h2⟩

/-- C3: for a submission with nonempty category, positive amount and enough
available funds, when the first budget whose normalized category equals the
normalized input category exists and has positive amount `B`, the expense is
rejected with the store unchanged when `S + amt > B` (`S` the cumulative
spend recorded under the normalized category string) and accepted and
appended when `S + amt ≤ B`; with no matching budget it is always accepted
and appended. The positivity of `B` reflects the data-model invariant that
stored amounts are strictly positive (the source skips the gate entirely for
a non-positive budget amount). -/
theorem C3_budget_gate (s : Store) (cat today : String) (amt : ℚ)
    (hcat : cat ≠ "") (hamt : 0 < amt)
    (hfunds : amt ≤ FinanceManager.get_available_funds s) :
    (∀ b : Rec,
      s.budgets.find? (fun x =>
          FinanceManager.normalize_category (x.category.getD "")
            == FinanceManager.normalize_category cat) = some b →
      0 < b.amount.getD 0 →
      (b.amount.getD 0 <
          FinanceManager.get_category_expense s (FinanceManager.normalize_category cat)
            + amt →
        ExpenseFrame.add_expense s cat amt today = (.budgetExceeded, s)) ∧
      (FinanceManager.get_category_expense s (FinanceManager.normalize_category cat)
            + amt ≤ b.amount.getD 0 →
        ExpenseFrame.add_expense s cat amt today =
          (.success, { s with expenses := s.expenses ++
              [{ category := some cat, amount := some amt, date := some today }] }))) ∧
    (s.budgets.find? (fun x =>
        FinanceManager.normalize_category (x.category.getD "")
          == FinanceManager.normalize_category cat) = none →
      ExpenseFrame.add_expense s cat amt today =
        (.success, { s with expenses := s.expenses ++
            [{ category := some cat, amount := some amt, date := some today }] })) := by
  have hcan : FinanceManager.can_add_expense s amt = true := by
    simp [FinanceManager.can_add_expense, hfunds]
  constructor
  · intro b hfind hpos
    constructor
    · intro hover
      simp only [ExpenseFrame.add_expense, hfind]
      split_ifs with h1 h2 h3 h4
      · exact absurd h1 hcat
      · exact absurd h2 (not_le.mpr hamt)
      · rw [hcan] at h3; exact absurd h3 (by decide)
      · rfl
      · exact absurd ⟨hpos, hover⟩ h4
    · intro hle
      simp only [ExpenseFrame.add_expense, hfind]
      split_ifs with h1 h2 h3 h4
      · exact absurd h1 hcat
      · exact absurd h2 (not_le.mpr hamt)
      · rw [hcan] at h3; exact absurd h3 (by decide)
      · exact absurd h4.2 (not_lt.mpr hle)
      · rfl
  · intro hnone
    simp only [ExpenseFrame.add_expense, hnone]
    split_ifs with h1 h2 h3 h4
    · exact absurd h1 hcat
    · exact absurd h2 (not_le.mpr hamt)
    · rw [hcan] at h3; exact absurd h3 (by decide)
    · exact absurd h4.1 (lt_irrefl 0)
    · rfl

def C3budget : Rec := { category := some " food ", amount := some 50 }

def C3store : Store :=
  { incomes := [{ category := some "salary", amount := some 100, date := some "2026-01-01" }],
    expenses := [], budgets := [C3budget], goals := [] }

theorem C3_witness :
    ExpenseFrame.add_expense C3store "food" 10 "2026-01-02" =
      (AddExpenseResult.success,
       { C3store with expenses := C3store.expenses ++
           [{ category := some "food", amount := some 10, date := some "2026-01-02" }] }) := by
  have hfunds : (10 : ℚ) ≤ FinanceManager.get_available_funds C3store := by
    norm_num [FinanceManager.get_available_funds, FinanceManager.get_total_income,
      FinanceManager.get_total_expense, C3store]
  have hS : FinanceManager.get_category_expense C3store
      (FinanceManager.normalize_category "food") = 0 := by
    simp [FinanceManager.get_category_expense, C3store]
  have h := (C3_budget_gate C3store "food" "2026-01-02" 10 (by decide) (by norm_num)
    hfunds).1 C3budget (by decide) (by norm_num [C3budget])
  exact h.2 (by rw [hS]; norm_num [C3budget])

theorem foldl_add_getD_append (l : List Rec) (e : Rec) :
    (l ++ [e]).foldl (fun acc item => acc + item.amount.getD 0) 0
      = l.foldl (fun acc item => acc + item.amount.getD 0) 0 + e.amount.getD 0 := by
  simp [foldl_add_getD]

/-- C4: achieving the live goal at position `idx` (a record with a name and
an amount) succeeds iff its amount is at most the available funds; on success
the goal is removed, exactly one settlement expense with the synthetic
category `Goal ("<name>")` and the goal's amount is appended, and the
available funds drop by exactly the goal's amount, staying nonnegative; on
failure the store is unchanged. -/
theorem C4_achieve_goal (s : Store) (idx : ℕ) (g : Rec) (nm : String) (amt : ℚ)
    (today : String)
    (_hfunds0 : 0 ≤ FinanceManager.get_available_funds s)
    (hidx : s.goals[idx]? = some g)
    (hnm : g.name = some nm) (hamt : g.amount = some amt) :
    (amt ≤ FinanceManager.get_available_funds s →
      SummaryFrame.achieve_goal s idx today =
        { s with goals := s.goals.eraseIdx idx,
                 expenses := s.expenses ++
                   [{ category := some (goalCategory nm), amount := some amt,
                      date := some today }] } ∧
      FinanceManager.get_available_funds (SummaryFrame.achieve_goal s idx today)
        = FinanceManager.get_available_funds s - amt ∧
      0 ≤ FinanceManager.get_available_funds (SummaryFrame.achieve_goal s idx today)) ∧
    (FinanceManager.get_available_funds s < amt →
      SummaryFrame.achieve_goal s idx today = s) := by
  obtain ⟨hlt, hget⟩ := List.getElem?_eq_some.mp hidx
  have hguard : ¬ ((idx : Int) < 0 ∨ (s.goals.length : Int) ≤ (idx : Int)) := by omega
  have hgetD : s.goals.getD ((idx : Int)).toNat default = g := by
    rw [Int.toNat_natCast, List.getD_eq_getElem?_getD, hidx]
    rfl
  have hdel : FinanceManager.delete_goal s (idx : Int) =
      { s with goals := s.goals.eraseIdx idx } := by
    simp only [FinanceManager.delete_goal, pyDelete]
    rw [if_neg (show ¬ ((idx : Int) < 0) by omega), if_pos ⟨by omega, by omega⟩,
      Int.toNat_natCast]
  constructor
  · intro hle
    have hres : SummaryFrame.achieve_goal s idx today =
        { s with goals := s.goals.eraseIdx idx,
                 expenses := s.expenses ++
                   [{ category := some (goalCategory nm), amount := some amt,
                      date := some today }] } := by
      simp only [SummaryFrame.achieve_goal]
      rw [if_neg hguard]
      simp only [hgetD, goalDisplayName, hnm, goalAmount, hamt, Option.getD_some]
      rw [if_neg (not_lt.mpr hle), hdel]
      rfl
    have hf : FinanceManager.get_available_funds
        { s with goals := s.goals.eraseIdx idx,
                 expenses := s.expenses ++
                   [{ category := some (goalCategory nm), amount := some amt,
                      date := some today }] }
        = FinanceManager.get_available_funds s - amt := by
      simp only [FinanceManager.get_available_funds, FinanceManager.get_total_income,
        FinanceManager.get_total_expense, foldl_add_getD_append]
      simp
      ring
    exact ⟨hres, by rw [hres, hf], by rw [hres, hf]; linarith⟩
  · intro hgt
    simp only [SummaryFrame.achieve_goal]
    rw [if_neg hguard]
    simp only [hgetD, goalDisplayName, hnm, goalAmount, hamt, Option.getD_some]
    rw [if_pos hgt]

def C4goal : Rec := { name := some "Car", amount := some 40 }

def C4store : Store :=
  { incomes := [{ category := some "salary", amount := some 100, date := some "2026-01-01" }],
    expenses := [], budgets := [], goals := [C4goal] }

theorem C4_witness :
    SummaryFrame.achieve_goal C4store 0 "2026-01-02" =
      { C4store with goals := C4store.goals.eraseIdx 0,
                     expenses := C4store.expenses ++
                       [{ category := some (goalCategory "Car"), amount := some 40,
                          date := some "2026-01-02" }] } ∧
    0 ≤ FinanceManager.get_available_funds (SummaryFrame.achieve_goal C4store 0 "2026-01-02") := by
  have hfunds : (0 : ℚ) ≤ FinanceManager.get_available_funds C4store := by
    norm_num [FinanceManager.get_available_funds, FinanceManager.get_total_income,
      FinanceManager.get_total_expense, C4store]
  have hle : (40 : ℚ) ≤ FinanceManager.get_available_funds C4store := by
    norm_num [FinanceManager.get_available_funds, FinanceManager.get_total_income,
      FinanceManager.get_total_expense, C4store]
  have h := (C4_achieve_goal C4store 0 C4goal "Car" 40 "2026-01-02" hfunds rfl rfl rfl).1 hle
  exact ⟨h.1, h.2.2⟩

/-- C8: `categories()` is the duplicate-free union of the raw, unnormalized
category strings of all incomes and all expenses, sorted ascending by
ordinary text order; on incomes `[{category:"food"}]` and expenses
`[{category:"Food"}]` it is exactly `["Food", "food"]`. -/
theorem C8_categories (s : Store)
    (hw : ∀ r ∈ s.incomes ++ s.expenses, r.category.isSome = true) :
    (FinanceManager.categories s).Sorted (· ≤ ·) ∧
    (FinanceManager.categories s).Nodup ∧
    (∀ c : String, c ∈ FinanceManager.categories s ↔
      ((∃ r ∈ s.incomes, r.category = some c) ∨ (∃ r ∈ s.expenses, r.category = some c))) ∧
    FinanceManager.categories
        { incomes := [{ category := some "food" }],
          expenses := [{ category := some "Food" }], budgets := [], goals := [] }
      = ["Food", "food"] := by
  refine ⟨List.sorted_insertionSort _ _,
    ((List.perm_insertionSort _ _).nodup_iff).mpr (List.nodup_dedup _), ?_, ?_⟩
  · intro c
    show c ∈ (_ : List String).insertionSort (· ≤ ·) ↔ _
    rw [(List.perm_insertionSort _ _).mem_iff, List.mem_dedup, List.mem_append]
    constructor
    · rintro (hmem | hmem)
      · left
        obtain ⟨r, hr, hrc⟩ := List.mem_map.mp hmem
        obtain ⟨x, hx⟩ := Option.isSome_iff_exists.mp (hw r (List.mem_append.mpr (Or.inl hr)))
        refine ⟨r, hr, ?_⟩
        rw [hx] at hrc ⊢
        simpa using hrc
      · right
        obtain ⟨r, hr, hrc⟩ := List.mem_map.mp hmem
        obtain ⟨x, hx⟩ := Option.isSome_iff_exists.mp (hw r (List.mem_append.mpr (Or.inr hr)))
        refine ⟨r, hr, ?_⟩
        rw [hx] at hrc ⊢
        simpa using hrc
    · rintro (⟨r, hr, hrc⟩ | ⟨r, hr, hrc⟩)
      · exact Or.inl (List.mem_map.mpr ⟨r, hr, by simp [hrc]⟩)
      · exact Or.inr (List.mem_map.mpr ⟨r, hr, by simp [hrc]⟩)
  · simp [FinanceManager.categories, List.insertionSort, List.orderedInsert, List.dedup]
    decide

def C8store : Store :=
  { incomes := [{ category := some "food" }],
    expenses := [{ category := some "Food" }], budgets := [], goals := [] }

theorem C8_witness :
    (FinanceManager.categories C8store).Sorted (· ≤ ·) ∧
    FinanceManager.categories C8store = ["Food", "food"] := by
  have h := C8_categories C8store (by decide)
  exact ⟨h.1, h.2.2.2⟩

end FinanceFlow
